import Mathlib

/-!
Shallow embedding of the thanhhoajs/swagger metadata-aggregation engine.

JavaScript objects whose fields may be absent are embedded as Lean structures
with Option-valued fields (absent = none).  JavaScript plain objects used as
maps (insertion-ordered) are embedded as association lists, with an upsert
operation that replaces in place (preserving position) or appends.
The explorer instance state (this.paths / this.schemas) is passed explicitly.
The mutually recursive reference resolution of the source is modelled with an
explicit fuel argument: a result of none means the recursion depth exceeded
the fuel, and a run that returns none for every fuel is a diverging run.
-/

namespace ThanhhoaSwagger

/-- Association-list membership test, mirroring the JS `key in obj` check. -/
def containsKey (m : List (String × α)) (k : String) : Bool :=
  m.any (fun e => e.fst == k)

/-- Association-list lookup, mirroring JS property access on a map object. -/
def lookupKey (m : List (String × α)) (k : String) : Option α :=
  (m.find? (fun e => e.fst == k)).map Prod.snd

/-- JS map-object assignment: replace in place if the key exists (position
preserved), otherwise append at the end. -/
def upsert (k : String) (v : α) : List (String × α) → List (String × α)
  | [] => [(k, v)]
  | (k', v') :: rest =>
    if k' == k then (k, v) :: rest else (k', v') :: upsert k v rest

/-- The schema fragment used as an array's items value.  The explorer reads
only its ref field (resolveReference inspects ref.$ref and returns the value
unchanged), so it is embedded as an opaque record with an optional $ref. -/
structure ItemsSchema where
  type? : Option String := none
  ref? : Option String := none
  rest : List (String × String) := []
deriving DecidableEq, Repr

/-- A property-level schema fragment as stored in SWAGGER_METADATA
(ApiProperty in the sources): possibly a primitive type tag, possibly a named
reference, possibly array items, plus opaque extra fields. -/
structure PropSchema where
  type? : Option String := none
  ref? : Option String := none
  items? : Option ItemsSchema := none
  rest : List (String × String) := []
deriving DecidableEq, Repr

/-- Replace the items field (the JS spread `{...prop, items: r}`). -/
def PropSchema.withItems (p : PropSchema) (i : Option ItemsSchema) : PropSchema :=
  { p with items? := i }

/-- A parameter object; all fields optional because decorators accept a
Partial of it.  The JS field named in is called location here. -/
structure ParameterObject where
  name? : Option String := none
  location? : Option String := none
  required? : Option Bool := none
  schema? : Option PropSchema := none
  description? : Option String := none
deriving DecidableEq, Repr

/-- A response object (by status code). -/
structure ResponseObject where
  description? : Option String := none
  rest : List (String × String) := []
deriving DecidableEq, Repr

/-- A security scheme entry of components.securitySchemes. -/
structure SecuritySchemeObject where
  type : String
  scheme? : Option String := none
  bearerFormat? : Option String := none
  description? : Option String := none
  flows : List (String × String) := []
deriving DecidableEq, Repr

/-- The components fragment written by the security decorators. -/
structure ComponentsMetadata where
  securitySchemes : List (String × SecuritySchemeObject) := []
deriving DecidableEq, Repr

/-- The argument of ApiOperation: a Partial OperationObject.  Only the fields
the explorer's spread can interact with are distinguished; the remainder is
an opaque payload. -/
structure OperationMeta where
  tags? : Option (List String) := none
  summary? : Option String := none
  description? : Option String := none
  rest : List (String × String) := []
deriving DecidableEq, Repr

/-- One requirement entry of a security list: scheme name and scope list. -/
abbrev SecurityRequirement := String × List String

/-- The SWAGGER_METADATA record attached to a class or a method.  Absent
fields are none; this single record shape serves endpoint targets (tags,
operation, parameters, requestBody, responses, security) and model targets
(type, properties). -/
structure Metadata where
  tags? : Option (List String) := none
  operation? : Option OperationMeta := none
  parameters? : Option (List ParameterObject) := none
  requestBody? : Option (List (String × String)) := none
  responses? : Option (List (String × ResponseObject)) := none
  security? : Option (List SecurityRequirement) := none
  components? : Option ComponentsMetadata := none
  type? : Option String := none
  properties? : Option (List (String × PropSchema)) := none
  rest : List (String × String) := []
deriving DecidableEq, Repr

/-- The global model registry __swagger_schemas: name to (metadata of the
registered class), in insertion order. -/
abbrev Registry := List (String × Metadata)

/-- An entry of the explorer's output schema map. -/
structure SchemaObject where
  type : String
  properties : List (String × PropSchema)
  rest : List (String × String) := []
deriving DecidableEq, Repr

/-- The explorer's schemas accumulator (this.schemas). -/
abbrev Schemas := List (String × SchemaObject)

/-!
Decorators.  Each decorator application is a transformation of the
SWAGGER_METADATA record of its target (Reflect.getMetadata (or {}) followed
by Reflect.defineMetadata).
-/

/-- ApiOperation: spreads the existing metadata and overwrites the operation
field with the supplied partial operation object. -/
def ApiOperation (meta : OperationMeta) (md : Metadata) : Metadata :=
  { md with operation? := some meta }

/-- ApiTags (method or class form, identical): spreads the existing metadata
and overwrites the tags field with the supplied tag list. -/
def ApiTags (tags : List String) (md : Metadata) : Metadata :=
  { md with tags? := some tags }

/-- ApiParam: pushes the supplied partial parameter, with its location field
forced to path, onto the existing parameters array (empty when absent). -/
def ApiParam (param : ParameterObject) (md : Metadata) : Metadata :=
  { md with
    parameters? :=
      some (md.parameters?.getD [] ++ [{ param with location? := some "path" }]) }

/-- ApiQuery: like ApiParam with the location field forced to query. -/
def ApiQuery (param : ParameterObject) (md : Metadata) : Metadata :=
  { md with
    parameters? :=
      some (md.parameters?.getD [] ++ [{ param with location? := some "query" }]) }

/-- The options record of ApiHeader: name, description, required and schema.
The field named in is not part of it, so the in: header written first in the
pushed object literal is never overridden by the options spread. -/
structure HeaderParamOptions where
  name : String
  description? : Option String := none
  required? : Option Bool := none
  schema? : Option PropSchema := none
deriving DecidableEq, Repr

/-- The object literal pushed by ApiHeader: in: header first, then the
options fields. -/
def mkHeaderParameter (options : HeaderParamOptions) : ParameterObject :=
  { name? := some options.name
    location? := some "header"
    required? := options.required?
    schema? := options.schema?
    description? := options.description? }

/-- ApiHeader: reads the metadata of the class-level slot of its target (the
lookup passes no property key), pushes a header parameter onto that record's
parameters array, and stores the resulting record — when applied to a
method, into the method-level slot, overwriting the method's previous
metadata wholesale (the method slot is never read, so successive ApiHeader
applications to a method do not concatenate there). -/
def ApiHeader (options : HeaderParamOptions) (classMd : Metadata)
    (_methodMd : Metadata) : Metadata :=
  { classMd with
    parameters? :=
      some (classMd.parameters?.getD [] ++ [mkHeaderParameter options]) }

/-- ApiBody: spreads the existing metadata and overwrites the requestBody
field. -/
def ApiBody (body : List (String × String)) (md : Metadata) : Metadata :=
  { md with requestBody? := some body }

/-- ApiResponse: upserts the supplied response under the status code in the
existing responses map (empty when absent). -/
def ApiResponse (statusCode : String) (resp : ResponseObject) (md : Metadata) :
    Metadata :=
  { md with responses? := some (upsert statusCode resp (md.responses?.getD [])) }

/-- ApiSecurity: builds the one-element list [{name: scopes}] and overwrites
the security field of the existing metadata with it.  It touches no other
field; in particular it registers nothing under components.securitySchemes. -/
def ApiSecurity (name : String) (scopes : List String) (md : Metadata) :
    Metadata :=
  { md with security? := some [(name, scopes)] }

/-- Options record of the basic and bearer auth decorators. -/
structure AuthOptions where
  description? : Option String := none
deriving DecidableEq, Repr

/-- ApiBasicAuth: defines a fresh metadata record (the previous metadata of
the target is not read and is replaced wholesale) holding the basicAuth
scheme and a one-element security list. -/
def ApiBasicAuth (options : AuthOptions) (_md : Metadata) : Metadata :=
  { components? := some
      { securitySchemes :=
          [("basicAuth",
            { type := "http", scheme? := some "basic",
              description? := options.description? })] }
    security? := some [("basicAuth", [])] }

/-- ApiBearerAuth: like ApiBasicAuth with the bearer scheme and JWT format. -/
def ApiBearerAuth (options : AuthOptions) (_md : Metadata) : Metadata :=
  { components? := some
      { securitySchemes :=
          [("bearerAuth",
            { type := "http", scheme? := some "bearer",
              bearerFormat? := some "JWT",
              description? := options.description? })] }
    security? := some [("bearerAuth", [])] }

/-- ApiOAuth2: like ApiBasicAuth with an oauth2 scheme carrying the flows. -/
def ApiOAuth2 (flows : List (String × String)) (_md : Metadata) : Metadata :=
  { components? := some
      { securitySchemes :=
          [("oauth2", { type := "oauth2", flows := flows })] }
    security? := some [("oauth2", [])] }

/-- ApiModel applied to a class with current metadata md: spreads the
user-supplied fragment, forces type to object, and keeps the existing
properties map, defaulting it to the empty object when absent — so after
ApiModel the properties field is always present, possibly empty.  The class
is also registered in the global registry; registration is modelled at the
Registry level by the caller. -/
def ApiModel (userRest : List (String × String)) (md : Metadata) : Metadata :=
  { rest := userRest
    type? := some "object"
    properties? := some (md.properties?.getD []) }

/-- ApiProperty applied to a class for property key with inferred/supplied
schema: upserts the property into the existing properties map, forces type
to object, and keeps every other field of the existing metadata. -/
def ApiProperty (key : String) (schema : PropSchema) (md : Metadata) : Metadata :=
  { md with
    type? := some "object"
    properties? := some (upsert key schema (md.properties?.getD [])) }

/-!
SwaggerExplorer.  Paths are lists of characters so the regex-based string
surgery of the source can be mirrored exactly.
-/

/-- The regex replace of one leading run of slashes: path.replace of the
anchored pattern of one-or-more slashes by the empty string. -/
def stripLeadingSlashes (s : List Char) : List Char :=
  s.dropWhile (fun c => c == '/')

/-- The regex replace of one trailing run of slashes. -/
def stripTrailingSlashes (s : List Char) : List Char :=
  (s.reverse.dropWhile (fun c => c == '/')).reverse

/-- SwaggerExplorer.normalizePath: a single slash prepended to the path
stripped of leading and trailing slash runs. -/
def normalizePath (s : List Char) : List Char :=
  '/' :: stripTrailingSlashes (stripLeadingSlashes s)

/-- The methodPath computation of exploreController: the empty route path
stays empty, otherwise one slash followed by the route path stripped of its
leading slashes. -/
def methodPath (routePath : List Char) : List Char :=
  if routePath = [] then [] else '/' :: stripLeadingSlashes routePath

/-- The fullPath computation of exploreController: base path concatenated
with the method path, then normalized. -/
def fullPath (basePath routePath : List Char) : List Char :=
  normalizePath (basePath ++ methodPath routePath)

/-- The parameter object pushed by extractPathParameters for one matched
template variable name. -/
def derivedPathParameter (nm : List Char) : ParameterObject :=
  { name? := some (String.mk nm)
    location? := some "path"
    required? := some true
    schema? := some { type? := some "string" } }

/-- SwaggerExplorer.extractPathParameters: repeatedly scan the path with the
global regex matching a colon followed by one or more non-slash characters,
pushing a derived path parameter for every match.  There is no check against
already declared parameters.  The regex loop is compiled into a structural
left-to-right scan: outside a match, a colon opens a candidate name; inside a
candidate name, non-slash characters (colons included, the character class is
greedy) extend it and a slash or the end of the path closes it, emitting a
parameter exactly when the collected name is nonempty.  The first argument is
the state: none = outside a match, some nm = inside one with the reversed
name characters collected so far. -/
def scanPathParams : Option (List Char) → List Char → List ParameterObject
  | none, [] => []
  | some nm, [] => if nm = [] then [] else [derivedPathParameter nm.reverse]
  | none, c :: rest =>
    if c = ':' then scanPathParams (some []) rest else scanPathParams none rest
  | some nm, c :: rest =>
    if c = '/' then
      (if nm = [] then [] else [derivedPathParameter nm.reverse]) ++
        scanPathParams none rest
    else scanPathParams (some (c :: nm)) rest

/-- The parameters array built by extractPathParameters for a path. -/
def extractPathParameters (path : List Char) : List ParameterObject :=
  scanPathParams none path

/-- The split of a $ref string on slashes followed by pop: its last
slash-separated component. -/
def splitOnSlash : List Char → List (List Char)
  | [] => [[]]
  | c :: rest =>
    let r := splitOnSlash rest
    if c = '/' then [] :: r
    else
      match r with
      | [] => [[c]]
      | h :: t => (c :: h) :: t

/-- refName extraction in resolveReference: ref.$ref.split on slash, pop. -/
def lastComponent (s : String) : String :=
  String.mk ((splitOnSlash s.data).getLastD s.data)

/-- The schema object materialized for a referenced or registered model:
the object literal with type object, the spread of the model's metadata
(whose type field, when present, overrides the literal's), and the
transformed properties overriding the metadata's own. -/
def mkSchemaObject (md : Metadata) (props : List (String × PropSchema)) :
    SchemaObject :=
  { type := md.type?.getD "object"
    properties := props
    rest := md.rest }

/-- One step of the loop body of SwaggerExplorer.transformProperties, with
the resolution of an items value abstracted as the resolve argument: copy the
property, resolving its items value when present (the value itself is
unchanged; the effect is on the schemas accumulator threaded through). -/
def transformStep
    (resolve : Schemas → ItemsSchema → Option (Schemas × ItemsSchema))
    (acc : Option (Schemas × List (String × PropSchema)))
    (entry : String × PropSchema) :
    Option (Schemas × List (String × PropSchema)) :=
  match acc with
  | none => none
  | some (s, done) =>
    match entry.snd.items? with
    | none => some (s, done ++ [entry])
    | some items =>
      match resolve s items with
      | none => none
      | some (s', items') =>
        some (s', done ++ [(entry.fst, entry.snd.withItems (some items'))])

/-- The loop of SwaggerExplorer.transformProperties over all properties. -/
def transformPropsWith
    (resolve : Schemas → ItemsSchema → Option (Schemas × ItemsSchema))
    (schemas : Schemas) (props : List (String × PropSchema)) :
    Option (Schemas × List (String × PropSchema)) :=
  props.foldl (transformStep resolve) (some (schemas, []))

/-- SwaggerExplorer.resolveReference, with the schemas accumulator passed
explicitly and a fuel bound on the mutual recursion depth through
transformProperties (none = fuel exhausted; the source has no such bound and
recurses directly).  When the value has a $ref whose last component is not
yet in the schema map but is in the registry, the referenced model is
materialized — its properties are transformed (recursively resolving their
items values) before the schema-map entry for it is written.  The value
itself is returned unchanged. -/
def resolveReference (reg : Registry) : Nat → Schemas → ItemsSchema →
    Option (Schemas × ItemsSchema)
  | 0, _, _ => none
  | fuel + 1, schemas, ref =>
    match ref.ref? with
    | none => some (schemas, ref)
    | some refPath =>
      let refName := lastComponent refPath
      if containsKey schemas refName then some (schemas, ref)
      else
        match lookupKey reg refName with
        | none => some (schemas, ref)
        | some md =>
          match transformPropsWith (resolveReference reg fuel) schemas
              (md.properties?.getD []) with
          | none => none
          | some (schemas', props') =>
            some (upsert refName (mkSchemaObject md props') schemas', ref)

/-- SwaggerExplorer.transformProperties: the transform loop with items
values resolved through resolveReference at the given fuel. -/
def transformProperties (reg : Registry) (fuel : Nat) (schemas : Schemas)
    (props : List (String × PropSchema)) :
    Option (Schemas × List (String × PropSchema)) :=
  transformPropsWith (resolveReference reg fuel) schemas props

/-- The loop body of SwaggerExplorer.collectGlobalSchemas over the remaining
registry entries: a model whose metadata has a (truthy) properties field —
present even when it holds zero properties — is materialized into the schema
map; a model whose metadata lacks the field is skipped silently.  The
transformation of the properties runs before the schema-map assignment. -/
def collectEntries (reg : Registry) (fuel : Nat) :
    List (String × Metadata) → Schemas → Option Schemas
  | [], schemas => some schemas
  | entry :: rest, schemas =>
    match entry.snd.properties? with
    | none => collectEntries reg fuel rest schemas
    | some props =>
      match transformProperties reg fuel schemas props with
      | none => none
      | some (schemas', props') =>
        collectEntries reg fuel rest
          (upsert entry.fst (mkSchemaObject entry.snd props') schemas')

/-- SwaggerExplorer.collectGlobalSchemas: walk the whole registry in
insertion order. -/
def collectGlobalSchemas (reg : Registry) (fuel : Nat) (schemas0 : Schemas) :
    Option Schemas :=
  collectEntries reg fuel reg schemas0

/-- The operation object emitted for one endpoint (the object literal of
exploreController, after all spreads are applied). -/
structure OperationObject where
  tags : List String
  summary? : Option String := none
  description? : Option String := none
  opRest : List (String × String) := []
  parameters : List ParameterObject
  requestBody? : Option (List (String × String)) := none
  responses : List (String × ResponseObject)
deriving DecidableEq, Repr

/-- The operation literal of exploreController: the computed tag list, then
the spread of the ApiOperation metadata (whose fields, tags included,
override the computed ones when present), then parameters (derived path
parameters prepended before the declared ones), requestBody and responses
(which always override anything the operation spread supplied), with the
absent responses map defaulted to the synthetic 200 Success entry. -/
def mkOperation (controllerTags : List String) (md : Metadata)
    (path : List Char) : OperationObject :=
  let opMeta := md.operation?.getD {}
  { tags := opMeta.tags?.getD (controllerTags ++ md.tags?.getD [])
    summary? := opMeta.summary?
    description? := opMeta.description?
    opRest := opMeta.rest
    parameters := extractPathParameters path ++ md.parameters?.getD []
    requestBody? := md.requestBody?
    responses := md.responses?.getD [("200", { description? := some "Success" })] }

/-- A path item: HTTP method key to operation, in insertion order. -/
abbrev PathItem := List (String × OperationObject)

/-- The explorer's paths accumulator (this.paths). -/
abbrev Paths := List (String × PathItem)

/-- The ROUTE_METADATA_KEY record of a routed controller method. -/
structure RouteMetadata where
  path : List Char
  method : String
deriving DecidableEq, Repr

/-- One method of a controller prototype: its route metadata when the method
is routed, and its SWAGGER_METADATA record ({} when absent). -/
structure MethodEntry where
  route? : Option RouteMetadata := none
  swagger : Metadata := {}
deriving DecidableEq, Repr

/-- A controller: its base path (CONTROLLER_METADATA_KEY, empty when
absent), its class-level SWAGGER_METADATA, and its prototype methods. -/
structure Controller where
  basePath : List Char := []
  swagger : Metadata := {}
  methods : List MethodEntry := []
deriving DecidableEq, Repr

/-- A module: its controllers list (empty when the module metadata has
none). -/
structure Module where
  controllers : List Controller := []
deriving DecidableEq, Repr

/-- SwaggerExplorer.getControllerTags: the class-level tags, or []. -/
def getControllerTags (c : Controller) : List String :=
  c.swagger.tags?.getD []

/-- SwaggerExplorer.exploreController: for each routed method, compute the
normalized full path, ensure a path item exists for it, and assign the
operation under the lowercased HTTP method key. -/
def exploreController (paths : Paths) (c : Controller) : Paths :=
  c.methods.foldl
    (fun acc m =>
      match m.route? with
      | none => acc
      | some route =>
        let fp := fullPath c.basePath route.path
        let fpKey := String.mk fp
        let methodKey := route.method.toLower
        let item := (lookupKey acc fpKey).getD []
        upsert fpKey
          (upsert methodKey (mkOperation (getControllerTags c) m.swagger fp) item)
          acc)
    paths

/-- The explorer instance state: this.paths and this.schemas. -/
structure ExplorerState where
  paths : Paths := []
  schemas : Schemas := []
deriving DecidableEq, Repr

/-- The value returned by explore: {paths, components: {schemas}}. -/
structure ExploreOutput where
  paths : Paths
  schemas : Schemas
deriving DecidableEq, Repr

/-- SwaggerExplorer.explore: reset both accumulators (the incoming instance
state is discarded), collect the global schemas from the registry, then
explore every controller of every module; return the accumulated paths and
schemas together with the new instance state.  none = fuel exhausted inside
reference resolution. -/
def explore (reg : Registry) (fuel : Nat) (modules : List Module)
    (_st : ExplorerState) : Option (ExplorerState × ExploreOutput) :=
  match collectGlobalSchemas reg fuel [] with
  | none => none
  | some schemas =>
    let paths := modules.foldl
      (fun acc m => m.controllers.foldl exploreController acc) []
    some ({ paths := paths, schemas := schemas },
          { paths := paths, schemas := schemas })

/-!
SwaggerService and setupSwagger.  The setupSwagger wiring is translated from
the repository sources; the SwaggerService class itself is not among them
(only its unit test is), so its document validation is modelled from the
spec.
-/

/-- The info object of a document; both identifying fields optional so the
absence the validation checks for is representable. -/
structure InfoObject where
  title? : Option String := none
  version? : Option String := none
  infoRest : List (String × String) := []
deriving DecidableEq, Repr

/-- The components object of a document. -/
structure ComponentsObject where
  schemas? : Option Schemas := none
  componentsRest : List (String × String) := []
deriving DecidableEq, Repr

/-- An OpenAPI document as the service receives it. -/
structure OpenAPIDocument where
  openapi? : Option String := none
  info? : Option InfoObject := none
  paths? : Option Paths := none
  components? : Option ComponentsObject := none
  docRest : List (String × String) := []
deriving DecidableEq, Repr

/-- Modelled from the spec: the structural validation of
SwaggerService.setDocument (the SwaggerService implementation is missing
from the sources; the spec states that validation fails exactly when paths,
info.title, or info.version is absent). -/
def validateDocument (doc : OpenAPIDocument) : Bool :=
  doc.paths?.isSome &&
  (doc.info?.bind (fun i => i.title?)).isSome &&
  (doc.info?.bind (fun i => i.version?)).isSome

/-- The service state: the document set so far, if any. -/
structure ServiceState where
  document? : Option OpenAPIDocument := none
deriving DecidableEq, Repr

/-- Modelled from the spec: SwaggerService.setDocument stores the document
when it passes structural validation and otherwise raises the structural
validation error (its unit test expects the message
"Invalid OpenAPI document structure" on the empty document). -/
def setDocument (_st : ServiceState) (doc : OpenAPIDocument) :
    Except String ServiceState :=
  if validateDocument doc then Except.ok { document? := some doc }
  else Except.error "Invalid OpenAPI document structure"

/-- The swagger configuration: optional UI path and required base document. -/
structure SwaggerConfig where
  path? : Option String := none
  document : OpenAPIDocument
deriving DecidableEq, Repr

/-- The complete document assembled by setupSwagger: the base document
spread, its paths replaced by the explored paths and its components merged
with the explorer components (the explored schemas winning on the schemas
key, the base components otherwise preserved). -/
def assembleDocument (config : SwaggerConfig) (out : ExploreOutput) :
    OpenAPIDocument :=
  { config.document with
    paths? := some out.paths
    components? := some
      { componentsRest := (config.document.components?.getD {}).componentsRest
        schemas? := some out.schemas } }

/-- setupSwagger, translated from the source wiring: generate documentation
by exploring the modules, assemble the complete document, set it on the
service, and only then register the swagger.json and UI routes (the route
path defaulting to docs).  A setDocument failure propagates as the exception
and no route is registered; none = explorer fuel exhausted. -/
def setupSwagger (reg : Registry) (fuel : Nat) (config : SwaggerConfig)
    (modules : List Module) :
    Option (Except String (ServiceState × List String)) :=
  match explore reg fuel modules {} with
  | none => none
  | some (_, out) =>
    match setDocument {} (assembleDocument config out) with
    | Except.error e => some (Except.error e)
    | Except.ok st =>
      let path := config.path?.getD "docs"
      some (Except.ok (st, [path ++ "/swagger.json", path]))

/-!
Concrete fixtures used by the claim statements below.
-/

/-- The five sample path fragments of the path-normalization property. -/
def samplePaths : List (List Char) :=
  ["", "/", "a", "/a/", "a/b"].map String.data

/-- A path starts with exactly one slash: its first character is a slash and
its second, when present, is not. -/
def startsWithExactlyOneSlash : List Char → Bool
  | '/' :: rest => !(rest.head? == some '/')
  | _ => false

/-- A path does not end with a slash unless it is the root path. -/
def noTrailingSlashUnlessRoot (l : List Char) : Bool :=
  l == ['/'] || !(l.getLast? == some '/')

/-- The explicitly declared path parameter of the duplicate-derivation
counterexample. -/
def c1DeclaredParam : ParameterObject :=
  { name? := some "id", required? := some true,
    schema? := some { type? := some "string" } }

/-- Endpoint metadata with one explicitly declared path parameter named id. -/
def c1Metadata : Metadata := ApiParam c1DeclaredParam {}

/-- The items value of the self-referential model of the divergence failing
input: an array-items reference back to model A itself. -/
def cycItems : ItemsSchema := { ref? := some "#/components/schemas/A" }

/-- The metadata of model A of the divergence failing input: one property x
of array type whose items reference A. -/
def cycMetadata : Metadata :=
  { type? := some "object"
    properties? := some [("x", { type? := some "array", items? := some cycItems })] }

/-- The divergence failing registry: the single self-referential model A. -/
def cycRegistry : Registry := [("A", cycMetadata)]

/-- The base document of the validation-gate witness run. -/
def sampleBaseDocument : OpenAPIDocument :=
  { openapi? := some "3.0.0"
    info? := some { title? := some "T", version? := some "1" }
    paths? := some [] }

/-- The document assembled for the validation-gate witness run. -/
def sampleCompleteDocument : OpenAPIDocument :=
  assembleDocument { document := sampleBaseDocument } ⟨[], []⟩


/-!
Library lemmas about the association-list operations and the resolution
recursion, shared by the claim theorems below.
-/

theorem lookupKey_cons (k₀ : String) (v₀ : α) (rest : List (String × α))
    (k : String) :
    lookupKey ((k₀, v₀) :: rest) k =
      if k₀ = k then some v₀ else lookupKey rest k := by
  by_cases h : k₀ = k
  · simp [lookupKey, List.find?, h]
  · have hbe : (k₀ == k) = false := beq_eq_false_iff_ne.mpr h
    simp [lookupKey, List.find?, hbe, h]

theorem containsKey_cons (k₀ : String) (v₀ : α) (rest : List (String × α))
    (k : String) :
    containsKey ((k₀, v₀) :: rest) k = ((k₀ = k) || containsKey rest k) := by
  by_cases h : k₀ = k <;> simp [containsKey, h]

theorem upsert_cons (k' : String) (v : α) (k₀ : String) (v₀ : α)
    (rest : List (String × α)) :
    upsert k' v ((k₀, v₀) :: rest) =
      if k₀ = k' then (k', v) :: rest else (k₀, v₀) :: upsert k' v rest := by
  by_cases h : k₀ = k' <;> simp [upsert, h]

/-- Lookup after upsert: the upserted key maps to the new value, every other
key is unaffected. -/
theorem lookupKey_upsert (m : List (String × α)) (k' k : String) (v : α) :
    lookupKey (upsert k' v m) k = if k = k' then some v else lookupKey m k := by
  induction m with
  | nil =>
    show lookupKey [(k', v)] k = _
    rw [lookupKey_cons]
    by_cases h : k = k'
    · rw [if_pos h.symm, if_pos h]
    · rw [if_neg (fun hh => h hh.symm), if_neg h]
  | cons e rest ih =>
    obtain ⟨k₀, v₀⟩ := e
    rw [upsert_cons]
    by_cases h0 : k₀ = k'
    · rw [if_pos h0, lookupKey_cons, lookupKey_cons]
      by_cases h1 : k' = k
      · rw [if_pos h1, if_pos h1.symm]
      · rw [if_neg h1, if_neg (fun hh : k = k' => h1 hh.symm),
            if_neg (fun hh : k₀ = k => h1 (h0.symm.trans hh))]
    · rw [if_neg h0, lookupKey_cons, lookupKey_cons, ih]
      by_cases h1 : k₀ = k
      · rw [if_pos h1, if_neg (fun hh : k = k' => h0 (h1.trans hh)), if_pos h1]
      · rw [if_neg h1, if_neg h1]

/-- Key presence is lookup success. -/
theorem containsKey_eq_isSome (m : List (String × α)) (k : String) :
    containsKey m k = (lookupKey m k).isSome := by
  induction m with
  | nil => simp [containsKey, lookupKey, List.find?]
  | cons e rest ih =>
    obtain ⟨k₀, v₀⟩ := e
    rw [containsKey_cons, lookupKey_cons, ih]
    split_ifs <;> simp_all

/-- Upsert makes its key present. -/
theorem containsKey_upsert_self (m : List (String × α)) (k : String) (v : α) :
    containsKey (upsert k v m) k = true := by
  simp [containsKey_eq_isSome, lookupKey_upsert]

/-- Upsert preserves the presence of every key. -/
theorem containsKey_upsert_mono (m : List (String × α)) (k' : String) (v : α)
    (k : String) (h : containsKey m k = true) :
    containsKey (upsert k' v m) k = true := by
  rw [containsKey_eq_isSome, lookupKey_upsert]
  by_cases hk : k = k'
  · simp [hk]
  · rw [if_neg hk, ← containsKey_eq_isSome]
    exact h

/-- The transform loop maps the none accumulator to none. -/
theorem transformLoop_none
    (resolve : Schemas → ItemsSchema → Option (Schemas × ItemsSchema))
    (props : List (String × PropSchema)) :
    props.foldl (transformStep resolve) none = none := by
  induction props with
  | nil => rfl
  | cons e rest ih => exact ih

/-- If the item resolver only grows the schema map, so does the transform
loop. -/
theorem transformPropsWith_mono
    (resolve : Schemas → ItemsSchema → Option (Schemas × ItemsSchema))
    (hres : ∀ s r s' r', resolve s r = some (s', r') →
      ∀ k, containsKey s k = true → containsKey s' k = true) :
    ∀ (props : List (String × PropSchema)) (s : Schemas)
      (done : List (String × PropSchema)) (s' : Schemas)
      (out : List (String × PropSchema)),
      props.foldl (transformStep resolve) (some (s, done)) = some (s', out) →
      ∀ k, containsKey s k = true → containsKey s' k = true := by
  intro props
  induction props with
  | nil =>
    intro s done s' out h k hk
    simp only [List.foldl_nil, Option.some.injEq, Prod.mk.injEq] at h
    rw [← h.1]
    exact hk
  | cons e rest ih =>
    intro s done s' out h k hk
    rw [List.foldl_cons] at h
    cases hit : e.snd.items? with
    | none =>
      simp only [transformStep, hit] at h
      exact ih s _ s' out h k hk
    | some items =>
      simp only [transformStep, hit] at h
      cases hr : resolve s items with
      | none =>
        simp only [hr] at h
        rw [transformLoop_none resolve rest] at h
        exact absurd h (by simp)
      | some p =>
        obtain ⟨s₁, items'⟩ := p
        simp only [hr] at h
        exact ih s₁ _ s' out h k (hres s items s₁ items' hr k hk)

/-- resolveReference only grows the schema map. -/
theorem resolveReference_mono (reg : Registry) :
    ∀ (fuel : Nat) (s : Schemas) (r : ItemsSchema) (s' : Schemas)
      (r' : ItemsSchema),
      resolveReference reg fuel s r = some (s', r') →
      ∀ k, containsKey s k = true → containsKey s' k = true := by
  intro fuel
  induction fuel with
  | zero =>
    intro s r s' r' h
    simp [resolveReference] at h
  | succ n ih =>
    intro s r s' r' h k hk
    rw [resolveReference] at h
    cases hr : r.ref? with
    | none =>
      simp only [hr, Option.some.injEq, Prod.mk.injEq] at h
      rw [← h.1]
      exact hk
    | some refPath =>
      simp only [hr] at h
      by_cases hc : containsKey s (lastComponent refPath)
      · simp only [hc, if_true, Option.some.injEq, Prod.mk.injEq] at h
        rw [← h.1]
        exact hk
      · simp only [hc, if_false] at h
        cases hl : lookupKey reg (lastComponent refPath) with
        | none =>
          simp only [hl] at h
          simp at h
          rw [← h.1]
          exact hk
        | some md =>
          simp only [hl] at h
          cases ht : transformPropsWith (resolveReference reg n) s
              (md.properties?.getD []) with
          | none => simp [ht] at h
          | some p =>
            obtain ⟨s₁, props'⟩ := p
            simp only [ht] at h
            simp at h
            rw [← h.1]
            exact containsKey_upsert_mono _ _ _ _
              (transformPropsWith_mono _ ih _ s [] s₁ props' ht k hk)

/-- The seeding loop: the schema map only grows, and every walked model
whose metadata has a properties field ends up present in the output. -/
theorem collectEntries_containsKey (reg : Registry) (fuel : Nat) :
    ∀ (entries : List (String × Metadata)) (s out : Schemas),
      collectEntries reg fuel entries s = some out →
      (∀ k, containsKey s k = true → containsKey out k = true) ∧
      (∀ e ∈ entries, e.snd.properties?.isSome = true →
        containsKey out e.fst = true) := by
  intro entries
  induction entries with
  | nil =>
    intro s out h
    simp only [collectEntries, Option.some.injEq] at h
    subst h
    exact ⟨fun k hk => hk, fun e he => absurd he (List.not_mem_nil e)⟩
  | cons e rest ih =>
    intro s out h
    rw [collectEntries] at h
    cases hp : e.snd.properties? with
    | none =>
      simp only [hp] at h
      obtain ⟨hmono, hmem⟩ := ih s out h
      refine ⟨hmono, fun e' he' hsome => ?_⟩
      rcases List.mem_cons.mp he' with he' | he'
      · subst he'
        rw [hp] at hsome
        simp at hsome
      · exact hmem e' he' hsome
    | some props =>
      simp only [hp] at h
      cases ht : transformProperties reg fuel s props with
      | none => simp [ht] at h
      | some p =>
        obtain ⟨s₁, props'⟩ := p
        simp only [ht] at h
        obtain ⟨hmono, hmem⟩ :=
          ih (upsert e.fst (mkSchemaObject e.snd props') s₁) out h
        have hstep : ∀ k, containsKey s k = true →
            containsKey (upsert e.fst (mkSchemaObject e.snd props') s₁) k = true := by
          intro k hk
          exact containsKey_upsert_mono _ _ _ _
            (transformPropsWith_mono _ (resolveReference_mono reg fuel) props
              s [] s₁ props' ht k hk)
        refine ⟨fun k hk => hmono k (hstep k hk), fun e' he' hsome => ?_⟩
        rcases List.mem_cons.mp he' with he' | he'
        · subst he'
          exact hmono e'.fst (containsKey_upsert_self _ _ _)
        · exact hmem e' he' hsome

/-- Every parameter produced by the path-template scan is a required path
parameter. -/
theorem scanPathParams_shape :
    ∀ (l : List Char) (st : Option (List Char)) (q : ParameterObject),
      q ∈ scanPathParams st l →
      q.location? = some "path" ∧ q.required? = some true := by
  intro l
  induction l with
  | nil =>
    intro st q hq
    cases st with
    | none => simp [scanPathParams] at hq
    | some nm =>
      by_cases h : nm = []
      · simp [scanPathParams, h] at hq
      · simp [scanPathParams, h] at hq
        subst hq
        exact ⟨rfl, rfl⟩
  | cons c rest ih =>
    intro st q hq
    cases st with
    | none =>
      by_cases h : c = ':'
      · rw [scanPathParams, if_pos h] at hq
        exact ih _ q hq
      · rw [scanPathParams, if_neg h] at hq
        exact ih _ q hq
    | some nm =>
      by_cases h : c = '/'
      · rw [scanPathParams, if_pos h] at hq
        rcases List.mem_append.mp hq with hq' | hq'
        · by_cases hnm : nm = []
          · simp [hnm] at hq'
          · simp [hnm] at hq'
            subst hq'
            exact ⟨rfl, rfl⟩
        · exact ih _ q hq'
      · rw [scanPathParams, if_neg h] at hq
        exact ih _ q hq

/-- Validation fails exactly on a missing paths map, info title, or info
version. -/
theorem validateDocument_eq_false_iff (doc : OpenAPIDocument) :
    validateDocument doc = false ↔
      (doc.paths? = none ∨ doc.info?.bind (fun i => i.title?) = none ∨
        doc.info?.bind (fun i => i.version?) = none) := by
  cases hp : doc.paths? with
  | none => simp [validateDocument, hp]
  | some ps =>
    cases hi : doc.info? with
    | none => simp [validateDocument, hp, hi]
    | some i =>
      cases ht : i.title? with
      | none => simp [validateDocument, hp, hi, ht]
      | some t =>
        cases hv : i.version? with
        | none => simp [validateDocument, hp, hi, ht, hv]
        | some v => simp [validateDocument, hp, hi, ht, hv]

/-- On the self-referential registry, resolving the reference to A never
succeeds, for any fuel, as long as A is not already in the schema map: the
source checks resolve-if-absent but inserts the materialized schema only
after the recursive resolution, so the absence is never cured. -/
theorem cyc_resolve_none :
    ∀ (fuel : Nat) (s : Schemas), containsKey s "A" = false →
      resolveReference cycRegistry fuel s cycItems = none := by
  intro fuel
  induction fuel with
  | zero => intro s _; rfl
  | succ n ih =>
    intro s hs
    rw [resolveReference]
    have h1 : cycItems.ref? = some "#/components/schemas/A" := rfl
    have h2 : lastComponent "#/components/schemas/A" = "A" := by decide
    have h3 : lookupKey cycRegistry "A" = some cycMetadata := by decide
    rw [h1]
    simp only [h2, hs, Bool.false_eq_true, if_false, h3]
    have h4 : transformPropsWith (resolveReference cycRegistry n) s
        (cycMetadata.properties?.getD []) = none := by
      show List.foldl _ _ _ = none
      have h5 : cycMetadata.properties?.getD [] =
          [("x", { type? := some "array", items? := some cycItems })] := rfl
      rw [h5, List.foldl_cons]
      have h6 : transformStep (resolveReference cycRegistry n)
          (some (s, []))
          ("x", { type? := some "array", items? := some cycItems }) = none := by
        simp only [transformStep, ih s hs]
      rw [h6, List.foldl_nil]
    rw [h4]

/-!
Claim theorems.
-/

/-- C1 (counterexample): on the path /users/:id with a path parameter id
explicitly declared by an annotation, the explorer still derives a parameter
for the template variable and prepends it, so the operation carries two path
parameters named id — contradicting the claim that no template variable
yields a derived parameter when a path parameter of the same name was
explicitly declared. -/
theorem derived_param_duplicates_declared :
    (mkOperation [] c1Metadata ("/users/:id".data)).parameters =
      [derivedPathParameter ("id".data),
       { c1DeclaredParam with location? := some "path" }] ∧
    ((mkOperation [] c1Metadata ("/users/:id".data)).parameters.countP
      (fun q => q.name? == some "id" && q.location? == some "path")) = 2 := by
  constructor
  · rfl
  · decide

/-- C1 (amended): the explorer auto-derives a required path parameter for
every colon-style template variable of the normalized full path,
unconditionally — with no check against explicitly declared parameters —
and prepends the derived parameters before the declared ones. -/
theorem derived_params_unconditional (controllerTags : List String)
    (md : Metadata) (path : List Char) :
    (mkOperation controllerTags md path).parameters =
      extractPathParameters path ++ md.parameters?.getD [] ∧
    ∀ q ∈ extractPathParameters path,
      q.location? = some "path" ∧ q.required? = some true := by
  refine ⟨rfl, fun q hq => ?_⟩
  exact scanPathParams_shape path none q hq

theorem derived_params_unconditional_witness :
    (mkOperation [] c1Metadata ("/users/:id".data)).parameters =
      extractPathParameters ("/users/:id".data) ++
        [{ c1DeclaredParam with location? := some "path" }] ∧
    (derivedPathParameter ("id".data)).location? = some "path" :=
  ⟨(derived_params_unconditional [] c1Metadata ("/users/:id".data)).1,
   ((derived_params_unconditional [] c1Metadata ("/users/:id".data)).2
     (derivedPathParameter ("id".data)) (by decide)).1⟩

/-- C2: explore resets its accumulators on entry, so its result does not
depend on the explorer state left behind by any earlier call; two successive
calls over the same registry and module list return identical output. -/
theorem explore_resets_state (reg : Registry) (fuel : Nat)
    (modules : List Module) (s₁ s₂ : ExplorerState) :
    explore reg fuel modules s₁ = explore reg fuel modules s₂ := rfl

/-- C3: setting the assembled document fails with the structural validation
error exactly when paths, info.title, or info.version is absent, and a
setupSwagger run that registers routes has stored a document that passed the
validation — a document that failed the check is never served. -/
theorem setDocument_validation_gate :
    (∀ (st : ServiceState) (doc : OpenAPIDocument),
      (∃ e, setDocument st doc = Except.error e) ↔
        (doc.paths? = none ∨ doc.info?.bind (fun i => i.title?) = none ∨
          doc.info?.bind (fun i => i.version?) = none)) ∧
    (∀ (reg : Registry) (fuel : Nat) (config : SwaggerConfig)
      (modules : List Module) (st : ServiceState) (routes : List String),
      setupSwagger reg fuel config modules =
        some (Except.ok (st, routes)) →
      ∃ d, st.document? = some d ∧ validateDocument d = true) := by
  constructor
  · intro st doc
    constructor
    · rintro ⟨e, he⟩
      by_cases hv : validateDocument doc
      · rw [setDocument, if_pos hv] at he
        exact absurd he (by simp)
      · exact (validateDocument_eq_false_iff doc).mp (Bool.eq_false_iff.mpr hv)
    · intro hd
      have hv : validateDocument doc = false :=
        (validateDocument_eq_false_iff doc).mpr hd
      exact ⟨"Invalid OpenAPI document structure", by simp [setDocument, hv]⟩
  · intro reg fuel config modules st routes h
    rw [setupSwagger] at h
    cases he : explore reg fuel modules {} with
    | none =>
      rw [he] at h
      exact absurd h (by simp)
    | some p =>
      obtain ⟨st0, out⟩ := p
      rw [he] at h
      dsimp only at h
      cases hsd : setDocument {} (assembleDocument config out) with
      | error e =>
        rw [hsd] at h
        exact absurd h (by simp)
      | ok st' =>
        rw [hsd] at h
        dsimp only at h
        simp only [Option.some.injEq, Except.ok.injEq, Prod.mk.injEq] at h
        by_cases hv : validateDocument (assembleDocument config out)
        · rw [setDocument, if_pos hv] at hsd
          refine ⟨assembleDocument config out, ?_, hv⟩
          rw [← h.1]
          injection hsd with hst
          rw [← hst]
        · rw [setDocument, if_neg hv] at hsd
          exact absurd hsd (by simp)

theorem setDocument_validation_gate_witness :
    (∃ e, setDocument {} {} = Except.error e) ∧
    (∃ d, ({ document? := some sampleCompleteDocument } : ServiceState).document? =
        some d ∧ validateDocument d = true) :=
  ⟨(setDocument_validation_gate.1 {} {}).mpr (Or.inl rfl),
   setDocument_validation_gate.2 [] 1 { document := sampleBaseDocument } []
     { document? := some sampleCompleteDocument }
     ["docs/swagger.json", "docs"] rfl⟩

/-- C4: for every base path and endpoint path segment drawn from the sample
set, the normalized full path starts with exactly one slash and does not end
with a slash unless it is the root path. -/
theorem normalized_path_shape :
    ∀ b ∈ samplePaths, ∀ p ∈ samplePaths,
      (startsWithExactlyOneSlash (fullPath b p) &&
        noTrailingSlashUnlessRoot (fullPath b p)) = true := by
  decide

theorem normalized_path_shape_witness :
    (startsWithExactlyOneSlash (fullPath ("a/b".data) ("/a/".data)) &&
      noTrailingSlashUnlessRoot (fullPath ("a/b".data) ("/a/".data))) = true :=
  normalized_path_shape _ (by decide) _ (by decide)

/-- C5 (counterexample): two ApiTags applications to the same target do not
concatenate in application order; the later application replaces the earlier
list, so a first tag Admin followed by a second tag Users leaves only
Users. -/
theorem apiTags_last_write_wins :
    (ApiTags ["Users"] (ApiTags ["Admin"] {})).tags? = some ["Users"] ∧
    (ApiTags ["Users"] (ApiTags ["Admin"] {})).tags? ≠ some ["Admin", "Users"] := by
  constructor
  · rfl
  · decide

/-- C5 (amended): ApiParam and ApiQuery annotations concatenate the
parameters of the same target in application order; ApiHeader instead reads
the class-level slot, appends its header parameter there, and overwrites the
method slot wholesale — its result never depends on the method slot's
previous content, so there is no method-level concatenation; tags and
security annotations replace the previous list of the same target (last
write wins); across granularities, controller-level tags still precede
method-level tags, so group tag Admin with endpoint tag Users yields exactly
[Admin, Users]. -/
theorem list_merge_rules_amended :
    (∀ md p, (ApiParam p md).parameters? =
      some (md.parameters?.getD [] ++ [{ p with location? := some "path" }])) ∧
    (∀ md p, (ApiQuery p md).parameters? =
      some (md.parameters?.getD [] ++ [{ p with location? := some "query" }])) ∧
    (∀ classMd methodMd options,
      (ApiHeader options classMd methodMd).parameters? =
        some (classMd.parameters?.getD [] ++ [mkHeaderParameter options])) ∧
    (∀ classMd m₁ m₂ options,
      ApiHeader options classMd m₁ = ApiHeader options classMd m₂) ∧
    (∀ md ts, (ApiTags ts md).tags? = some ts) ∧
    (∀ md name scopes, (ApiSecurity name scopes md).security? =
      some [(name, scopes)]) ∧
    (∀ path, (mkOperation
      (getControllerTags { swagger := ApiTags ["Admin"] {} })
      (ApiTags ["Users"] {}) path).tags = ["Admin", "Users"]) := by
  refine ⟨fun md p => rfl, fun md p => rfl, fun classMd methodMd options => rfl,
    fun classMd m₁ m₂ options => rfl, fun md ts => rfl,
    fun md name scopes => rfl, fun path => ?_⟩
  simp [mkOperation, ApiTags, getControllerTags]

/-- C6 (counterexample): re-applying ApiSecurity for the same scheme name
does not append a second requirement entry — the security list is replaced
and keeps length one — and ApiSecurity registers nothing in the
security-scheme component map, so the requirement count does not equal the
number of applications. -/
theorem apiSecurity_no_accumulation :
    (ApiSecurity "x" ["s"] (ApiSecurity "x" ["s"] {})).security? =
      some [("x", ["s"])] ∧
    ((ApiSecurity "x" ["s"] (ApiSecurity "x" ["s"] {})).security?.getD
      []).length ≠ 2 ∧
    (ApiSecurity "x" ["s"] {}).components? = none := by
  refine ⟨rfl, by decide, rfl⟩

/-- C6 (amended): each of ApiBasicAuth, ApiBearerAuth and ApiOAuth2
replaces the target's metadata wholesale — the result is a fixed record,
independent of the previous metadata, whose only contents are its named
scheme registered in the security-scheme component map and a security list
of exactly one requirement entry; ApiSecurity replaces the target's security
list with exactly one requirement entry and registers no scheme; requirement
entries are never accumulated, so their count after any number of
applications is one. -/
theorem security_annotation_rules :
    (∀ md options, ApiBasicAuth options md =
      { components? := some
          { securitySchemes :=
              [("basicAuth",
                { type := "http", scheme? := some "basic",
                  description? := options.description? })] }
        security? := some [("basicAuth", [])] }) ∧
    (∀ md options, ApiBearerAuth options md =
      { components? := some
          { securitySchemes :=
              [("bearerAuth",
                { type := "http", scheme? := some "bearer",
                  bearerFormat? := some "JWT",
                  description? := options.description? })] }
        security? := some [("bearerAuth", [])] }) ∧
    (∀ md flows, ApiOAuth2 flows md =
      { components? := some
          { securitySchemes :=
              [("oauth2", { type := "oauth2", flows := flows })] }
        security? := some [("oauth2", [])] }) ∧
    (∀ md name scopes,
      (ApiSecurity name scopes md).security? = some [(name, scopes)] ∧
      (ApiSecurity name scopes md).components? = md.components?) := by
  exact ⟨fun md options => rfl, fun md options => rfl, fun md flows => rfl,
    fun md name scopes => ⟨rfl, rfl⟩⟩

/-- C7 (counterexample): a model registered by an ApiModel annotation with
no property annotations has a present-but-empty properties map (zero
declared properties), and the seeding loop still emits a schema entry for it
instead of skipping it. -/
theorem zero_property_model_emitted :
    (ApiModel [] {}).properties? = some [] ∧
    collectGlobalSchemas [("M", ApiModel [] {})] 1 [] =
      some [("M", { type := "object", properties := [] })] ∧
    containsKey [("M", ({ type := "object", properties := [] } : SchemaObject))]
      "M" = true := by
  refine ⟨rfl, by decide, by decide⟩

/-- C7 (amended): a walked model is seeded into the schema map whenever its
metadata has a properties field at all — present even when it declares zero
properties, as after a bare ApiModel annotation — while a model whose
metadata lacks the field is skipped silently, with no error. -/
theorem schema_seeding_by_presence :
    (∀ (reg : Registry) (fuel : Nat) (s0 out : Schemas),
      collectGlobalSchemas reg fuel s0 = some out →
      ∀ e ∈ reg, e.snd.properties?.isSome = true →
        containsKey out e.fst = true) ∧
    (∀ (fuel : Nat) (n : String) (md : Metadata), md.properties? = none →
      collectGlobalSchemas [(n, md)] fuel [] = some []) := by
  constructor
  · intro reg fuel s0 out h e he hsome
    exact (collectEntries_containsKey reg fuel reg s0 out h).2 e he hsome
  · intro fuel n md h
    simp [collectGlobalSchemas, collectEntries, h]

theorem schema_seeding_by_presence_witness :
    containsKey [("M", ({ type := "object", properties := [] } : SchemaObject))]
      "M" = true ∧
    collectGlobalSchemas [("N", {})] 0 [] = some [] :=
  ⟨schema_seeding_by_presence.1 [("M", ApiModel [] {})] 1 []
      [("M", { type := "object", properties := [] })] (by decide)
      ("M", ApiModel [] {}) (by decide) (by decide),
   schema_seeding_by_presence.2 0 "N" {} rfl⟩

/-- C8: an endpoint whose metadata has no responses field at all gets the
single synthetic 200 Success entry; an endpoint with a declared responses
map gets it emitted unchanged. -/
theorem default_responses_synthetic (controllerTags : List String)
    (md : Metadata) (path : List Char) :
    (md.responses? = none →
      (mkOperation controllerTags md path).responses =
        [("200", { description? := some "Success" })]) ∧
    (∀ rs, md.responses? = some rs →
      (mkOperation controllerTags md path).responses = rs) := by
  constructor
  · intro h
    simp [mkOperation, h]
  · intro rs h
    simp [mkOperation, h]

theorem default_responses_synthetic_witness :
    (mkOperation [] {} []).responses =
      [("200", { description? := some "Success" })] ∧
    (mkOperation [] { responses? := some [("404", {})] } []).responses =
      [("404", {})] :=
  ⟨(default_responses_synthetic [] {} []).1 rfl,
   (default_responses_synthetic [] { responses? := some [("404", {})] } []).2
     _ rfl⟩

/-- C9: reference resolution does not terminate on a registry containing a
self-referential model — no recursion depth suffices, neither for resolving
the reference itself nor for the schema-seeding pass of explore that
triggers it, because the materialized schema is inserted only after the
recursive resolution, so the resolve-if-absent check never sees it. -/
theorem reference_resolution_diverges_on_cycle (fuel : Nat)
    (st : ExplorerState) :
    resolveReference cycRegistry fuel [] cycItems = none ∧
    explore cycRegistry fuel [] st = none := by
  constructor
  · exact cyc_resolve_none fuel [] rfl
  · have hc : collectGlobalSchemas cycRegistry fuel [] = none := by
      show collectEntries cycRegistry fuel [("A", cycMetadata)] [] = none
      rw [collectEntries]
      have hp : cycMetadata.properties? =
          some [("x", { type? := some "array", items? := some cycItems })] := rfl
      simp only [hp]
      have ht : transformProperties cycRegistry fuel []
          [("x", { type? := some "array", items? := some cycItems })] = none := by
        show List.foldl _ _ _ = none
        rw [List.foldl_cons]
        have h6 : transformStep (resolveReference cycRegistry fuel)
            (some ([], []))
            ("x", { type? := some "array", items? := some cycItems }) = none := by
          simp only [transformStep, cyc_resolve_none fuel [] rfl]
        rw [h6, List.foldl_nil]
      simp only [ht]
    rw [explore, hc]

/-- C10: when the ApiOperation metadata itself carries a tags field, the
emitted operation's tag list is exactly that list; the combined
controller-plus-method ApiTags contributions are discarded by the operation
spread. -/
theorem apiOperation_tags_override (controllerTags : List String)
    (md : Metadata) (om : OperationMeta) (ts : List String) (path : List Char)
    (h : om.tags? = some ts) :
    (mkOperation controllerTags (ApiOperation om md) path).tags = ts := by
  simp [mkOperation, ApiOperation, h]

theorem apiOperation_tags_override_witness :
    (mkOperation ["Admin"] (ApiOperation { tags? := some ["Op"] }
      (ApiTags ["Users"] {})) ("/x".data)).tags = ["Op"] :=
  apiOperation_tags_override ["Admin"] (ApiTags ["Users"] {})
    { tags? := some ["Op"] } ["Op"] ("/x".data) rfl

end ThanhhoaSwagger
